import Mathlib

/-!
Verification of the eth-fraud-sentinel training backend.

Shallow embedding of `src/backend/xgboost_fraud.py`, `src/backend/svm_fraud.py`,
`src/backend/random_forest_fraud.py` and the dispatch in `src/backend/api.py`.
Numeric values are modelled as exact rationals; pandas/sklearn/imblearn library
routines whose bodies are not in the repository are either embedded from their
standard documented semantics (quantiles, score functions) or abstracted as
explicit function parameters (the fitted classifier, the per-element scaling
map, the synthetic-sample generator, AUC scores).
-/

namespace FraudBackend

/-- pandas `Series.quantile(q)` with the default linear interpolation,
over the non-missing values it is given: sort ascending, let `h = q*(n-1)`,
and interpolate between the two neighbouring order statistics.
Returns `none` on an empty series (pandas returns NaN). -/
def pandasQuantile (xs : List ℚ) (q : ℚ) : Option ℚ :=
  let s := List.insertionSort (· ≤ ·) xs
  match s with
  | [] => none
  | _ :: _ =>
    let m : ℚ := ((s.length - 1 : ℕ) : ℚ)
    let h : ℚ := q * m
    let i : ℕ := (Rat.floor h).toNat
    let lo := s.getD i 0
    let hi := s.getD (i + 1) lo
    some (lo + (h - (i : ℚ)) * (hi - lo))

/-- The non-missing values of column `c` of a frame
(one `List (Option ℚ)` per row, `none` = NaN).  pandas quantiles skip NaN. -/
def colVals (df : List (List (Option ℚ))) (c : ℕ) : List ℚ :=
  df.filterMap (fun row => row.getD c none)

/-- The per-row keep condition accumulated in `iqr_clip`
(`xgboost_fraud.py` lines 27-34): for every listed column, either the value is
missing (`df[c].isna()`) or it lies between `q1 - k*iqr` and `q3 + k*iqr`
inclusive (`df[c].between(low, high)`), where `q1`/`q3` are the column's
25th/75th percentiles over the whole frame passed in.  `between` with NaN
bounds (an all-missing column) is False for every value. -/
def keepRow (df : List (List (Option ℚ))) (cols : List ℕ) (k : ℚ)
    (r : List (Option ℚ)) : Bool :=
  cols.all fun c =>
    match r.getD c none with
    | none => true
    | some x =>
      match pandasQuantile (colVals df c) (1/4), pandasQuantile (colVals df c) (3/4) with
      | some q1, some q3 =>
        decide (q1 - k * (q3 - q1) ≤ x) && decide (x ≤ q3 + k * (q3 - q1))
      | _, _ => false

/-- Function `iqr_clip` (`xgboost_fraud.py` lines 25-35): keep exactly the rows whose
value in every listed column is missing or within the IQR fence; rows are
returned unchanged, in order (`df.loc[keep_mask].copy()`). -/
def iqr_clip (df : List (List (Option ℚ))) (cols : List ℕ) (k : ℚ := 3/2) :
    List (List (Option ℚ)) :=
  df.filter (keepRow df cols k)

/-- Claim C7's retention condition, as the specification words it: the row's
value in every listed column is missing, or lies in
`[Q1 - 1.5*IQR, Q3 + 1.5*IQR]` with `Q1`,`Q3` the 25th/75th percentiles of
that column over the whole pre-split frame. -/
def specKeepRow (df : List (List (Option ℚ))) (cols : List ℕ)
    (r : List (Option ℚ)) : Prop :=
  ∀ c ∈ cols,
    r.getD c none = none ∨
    ∃ x q1 q3, r.getD c none = some x ∧
      pandasQuantile (colVals df c) (1/4) = some q1 ∧
      pandasQuantile (colVals df c) (3/4) = some q3 ∧
      q1 - 3/2 * (q3 - q1) ≤ x ∧ x ≤ q3 + 3/2 * (q3 - q1)

/-- Column `total_txn_freq` (`engineer_features`, line 115): per-row sum of the two
frequency columns. -/
def total_txn_freq (fs fr : List ℚ) : List ℚ := List.zipWith (· + ·) fs fr

/-- The `q75` threshold of `engineer_features` lines 128-129:
`freq_proxy = total_txn_freq.replace(0, np.nan)` and then
`freq_proxy.quantile(0.75)` (which skips NaN) unless every entry is NaN,
in which case the threshold is `0`. -/
def freq_q75 (sums : List ℚ) : ℚ :=
  let freq_proxy := sums.map (fun s => if s = 0 then none else some s)
  if freq_proxy.all Option.isNone then 0
  else (pandasQuantile (freq_proxy.filterMap id) (3/4)).getD 0

/-- The engineered `high_txn_freq_flag` column (`engineer_features` line 130):
`(total_txn_freq >= q75).astype(int)`. -/
def high_txn_freq_flag_col (fs fr : List ℚ) : List ℕ :=
  (total_txn_freq fs fr).map fun s => if freq_q75 (total_txn_freq fs fr) ≤ s then 1 else 0

/-- Claim C3's reading of the flag: 1 iff the row's frequency sum is at least
the 75th percentile of that sum taken over ALL rows of the frame
(zeros included). -/
def claim_high_txn_freq_flag_col (fs fr : List ℚ) : List ℕ :=
  (total_txn_freq fs fr).map fun s =>
    if ((pandasQuantile (total_txn_freq fs fr) (3/4)).getD 0) ≤ s then 1 else 0

/-- The amended threshold, as claim C3 must be corrected to read: the 75th
percentile of the NONZERO frequency sums, and 0 when every sum is zero
(or the frame is empty). -/
def freq_q75_amended (sums : List ℚ) : ℚ :=
  let nz := sums.filter (fun s => !decide (s = 0))
  if nz = [] then 0 else (pandasQuantile nz (3/4)).getD 0

lemma keepRow_iff (df : List (List (Option ℚ))) (cols : List ℕ)
    (r : List (Option ℚ)) :
    keepRow df cols (3/2) r = true ↔ specKeepRow df cols r := by
  unfold keepRow specKeepRow
  rw [List.all_eq_true]
  apply forall_congr'
  intro c
  apply imp_congr_right
  intro _
  cases hget : r.getD c none with
  | none => simp [hget]
  | some x =>
    cases hq1 : pandasQuantile (colVals df c) (1/4) with
    | none => simp [hget, hq1]
    | some q1 =>
      cases hq3 : pandasQuantile (colVals df c) (3/4) with
      | none => simp [hget, hq1, hq3]
      | some q3 => simp [hget, hq1, hq3]

/-- C7: `iqr_clip` retains a row iff, for every listed column, the row's value
is missing or lies in the IQR fence `[Q1 - 1.5*IQR, Q3 + 1.5*IQR]` computed
from that column over the whole frame passed in (which, at both call sites,
is the full pre-split feature+label frame); retained rows are returned
unchanged, as a sublist of the input in input order. -/
theorem iqr_clip_retention (df : List (List (Option ℚ))) (cols : List ℕ) :
    (iqr_clip df cols).Sublist df ∧
    ∀ r, r ∈ iqr_clip df cols ↔ r ∈ df ∧ specKeepRow df cols r := by
  refine ⟨List.filter_sublist df, fun r => ?_⟩
  rw [iqr_clip, List.mem_filter, keepRow_iff]

lemma freq_q75_eq_amended (sums : List ℚ) : freq_q75 sums = freq_q75_amended sums := by
  unfold freq_q75 freq_q75_amended
  have h1 : (sums.map (fun s => if s = 0 then none else some s)).filterMap id
      = sums.filter (fun s => !decide (s = 0)) := by
    induction sums with
    | nil => rfl
    | cons a t ih =>
      by_cases ha : a = 0 <;> simp [ha, ih, List.filter_cons]
  have hkey : ((sums.map fun s => if s = 0 then none else some s).all Option.isNone = true)
      ↔ ∀ s ∈ sums, s = 0 := by
    rw [List.all_eq_true]
    constructor
    · intro h s hs
      have := h _ (List.mem_map_of_mem _ hs)
      by_contra hs0
      simp [hs0] at this
    · intro h o ho
      obtain ⟨s, hs, rfl⟩ := List.mem_map.mp ho
      simp [h s hs]
  have hnil : (sums.filter (fun s => !decide (s = 0)) = []) ↔ ∀ s ∈ sums, s = 0 := by
    rw [List.filter_eq_nil_iff]
    constructor
    · intro h s hs
      by_contra hs0
      exact h s hs (by simpa using hs0)
    · intro h s hs
      simp [h s hs]
  by_cases hall : ∀ s ∈ sums, s = 0
  · rw [if_pos (hkey.mpr hall), if_pos (hnil.mpr hall)]
  · rw [if_neg (fun hc => hall (hkey.mp hc)), if_neg (fun hc => hall (hnil.mp hc)), h1]

/-- C3 (amended): the engineered flag is 1 exactly when the row's frequency
sum is at least the 75th percentile of the NONZERO sums (zeros are replaced
by NaN and skipped by the quantile; when every sum is zero the threshold is
0); on a frame none of whose frequency sums is zero this coincides with the
claim's all-rows percentile. -/
theorem high_txn_freq_flag_amended (fs fr : List ℚ) :
    high_txn_freq_flag_col fs fr
      = (total_txn_freq fs fr).map
          (fun s => if freq_q75_amended (total_txn_freq fs fr) ≤ s then 1 else 0) ∧
    ((0:ℚ) ∉ total_txn_freq fs fr →
      high_txn_freq_flag_col fs fr = claim_high_txn_freq_flag_col fs fr) := by
  constructor
  · rw [high_txn_freq_flag_col, freq_q75_eq_amended]
  · intro h0
    rw [high_txn_freq_flag_col, claim_high_txn_freq_flag_col, freq_q75_eq_amended]
    have hfilt : (total_txn_freq fs fr).filter (fun s => !decide (s = 0))
        = total_txn_freq fs fr := by
      rw [List.filter_eq_self]
      intro s hs
      simp only [Bool.not_eq_true', decide_eq_false_iff_not]
      exact fun hs0 => h0 (hs0 ▸ hs)
    unfold freq_q75_amended
    rw [hfilt]
    cases hT : total_txn_freq fs fr with
    | nil => rfl
    | cons a t => rw [if_neg (by simp)]

/-- C3 (counterexample): on the frame with frequency sums
`[0, 4, 5, 5.4, 6]` the code's threshold is the 75th percentile of the
nonzero sums `[4, 5, 5.4, 6]`, namely `5.55`, while the claim's all-rows
percentile is `5.4`; the row with sum `5.4` is therefore flagged 0 by the
code but 1 by the claim. -/
theorem high_txn_freq_flag_claim_false :
    high_txn_freq_flag_col [0, 4, 5, 27/5, 6] [0, 0, 0, 0, 0]
      ≠ claim_high_txn_freq_flag_col [0, 4, 5, 27/5, 6] [0, 0, 0, 0, 0] := by
  norm_num [high_txn_freq_flag_col, claim_high_txn_freq_flag_col, total_txn_freq,
    freq_q75, pandasQuantile, List.insertionSort, List.orderedInsert, List.zipWith,
    List.filterMap, Rat.floor, List.getD,
    (show ((2:ℤ)).toNat = 2 from rfl), (show ((3:ℤ)).toNat = 3 from rfl)]

/-- C3 (witness for the amended theorem): a frame with no zero frequency
sums, on which the corrected flag agrees with the claim's wording. -/
theorem high_txn_freq_flag_amended_witness :
    high_txn_freq_flag_col [1, 2, 3, 4] [0, 0, 0, 0]
      = claim_high_txn_freq_flag_col [1, 2, 3, 4] [0, 0, 0, 0] :=
  (high_txn_freq_flag_amended [1, 2, 3, 4] [0, 0, 0, 0]).2
    (by norm_num [total_txn_freq, List.zipWith])

/-- The four classifier families the backend can train
(`api.py` lines 52-64; the spec's closed set, §4.6). -/
inductive ModelFamily
  | xgboost
  | svm
  | random_forest
  | neural_network
deriving DecidableEq

/-- Python `str.lower()`, character-wise (ASCII case mapping suffices for the
family names compared against). -/
def lowerAscii (s : String) : String := String.mk (s.data.map Char.toLower)

/-- The family selection of `train_endpoint` (`api.py` lines 52-64):
`chosen = (model or "").lower()` followed by the if/elif chain whose final
`else` branch trains xgboost.  There is no error path. -/
def train_dispatch (model : Option String) : ModelFamily :=
  let chosen := lowerAscii (model.getD "")
  if chosen = "svm" then ModelFamily.svm
  else if chosen = "random_forest" then ModelFamily.random_forest
  else if chosen = "neural_network" then ModelFamily.neural_network
  else ModelFamily.xgboost

/-- The `used_model` tag the endpoint stores in the returned metrics. -/
def used_model : ModelFamily → String
  | ModelFamily.xgboost => "xgboost"
  | ModelFamily.svm => "svm"
  | ModelFamily.random_forest => "random_forest"
  | ModelFamily.neural_network => "neural_network"

/-- The recognized classifier-family names (spec §6: the four families). -/
def validFamilyNames : List String :=
  ["xgboost", "svm", "random_forest", "neural_network"]

/-- C1 (counterexample): the family name "bogus" is not one of the four
recognized families, yet `train_endpoint` routes it to the xgboost branch
and trains that model — it is silently defaulted, not rejected with a
validation error (and the uploaded files are parsed by `load_and_prepare`
before the name is even examined). -/
theorem unknown_family_silently_defaulted :
    ("bogus" ∈ validFamilyNames → False) ∧
    train_dispatch (some "bogus") = ModelFamily.xgboost ∧
    used_model (train_dispatch (some "bogus")) = "xgboost" :=
  ⟨by decide, by decide, by decide⟩

/-- C1 (amended): an unknown classifier-family name is NOT rejected: every
name whose lower-casing is none of "svm", "random_forest",
"neural_network" — recognized or not — is routed to the xgboost branch and
trained there, with `used_model` reported as "xgboost"; the uploaded files
are parsed before the family name is examined. -/
theorem train_dispatch_unknown_routes_to_xgboost (s : String)
    (h : lowerAscii s ∉ ["svm", "random_forest", "neural_network"]) :
    train_dispatch (some s) = ModelFamily.xgboost ∧
    used_model (train_dispatch (some s)) = "xgboost" := by
  simp only [List.mem_cons, List.not_mem_nil, or_false, not_or] at h
  obtain ⟨h1, h2, h3⟩ := h
  unfold train_dispatch
  simp only [Option.getD_some, if_neg h1, if_neg h2, if_neg h3]
  exact ⟨trivial, rfl⟩

/-- C1 (witness): the amended theorem applied at the unknown name "bogus". -/
theorem train_dispatch_unknown_routes_to_xgboost_witness :
    train_dispatch (some "bogus") = ModelFamily.xgboost ∧
    used_model (train_dispatch (some "bogus")) = "xgboost" :=
  train_dispatch_unknown_routes_to_xgboost "bogus" (by decide)

/-! ## The training/evaluation pipeline (`fit_and_eval` and `train_xgb`) -/

/-- True-positive count of a prediction vector against labels. -/
def tp (y p : List Bool) : ℕ := (y.zip p).countP fun ab => ab.1 && ab.2

/-- False-positive count. -/
def fp (y p : List Bool) : ℕ := (y.zip p).countP fun ab => !ab.1 && ab.2

/-- False-negative count. -/
def fnc (y p : List Bool) : ℕ := (y.zip p).countP fun ab => ab.1 && !ab.2

/-- sklearn `accuracy_score`: fraction of positions where label and
prediction agree. -/
def accuracy_score (y p : List Bool) : ℚ :=
  (((y.zip p).countP fun ab => ab.1 == ab.2 : ℕ) : ℚ) / (y.length : ℚ)

/-- sklearn `precision_score(..., zero_division=0)` as called at
`xgboost_fraud.py` line 231: `tp/(tp+fp)`, defaulting to 0 instead of
raising when no positive was predicted. -/
def precision_score (y p : List Bool) : ℚ :=
  if tp y p + fp y p = 0 then 0 else (tp y p : ℚ) / ((tp y p : ℚ) + (fp y p : ℚ))

/-- sklearn `recall_score(..., zero_division=0)` (line 232): `tp/(tp+fn)`,
defaulting to 0 when there is no positive label. -/
def recall_score (y p : List Bool) : ℚ :=
  if tp y p + fnc y p = 0 then 0 else (tp y p : ℚ) / ((tp y p : ℚ) + (fnc y p : ℚ))

/-- sklearn `f1_score(..., zero_division=0)` (line 233): harmonic mean of
precision and recall, defaulting to 0 when both are 0. -/
def f1_score (y p : List Bool) : ℚ :=
  let pr := precision_score y p
  let rc := recall_score y p
  if pr + rc = 0 then 0 else 2 * pr * rc / (pr + rc)

/-- One record of the `recent_events` diagnostic
(`xgboost_fraud.py` lines 279-292). -/
structure Event where
  address : String
  status : String
  confidence : ℚ
  time : String
deriving DecidableEq

/-- The metrics dictionary built by `fit_and_eval`
(`xgboost_fraud.py` lines 229-295).  `feature_importances = none` models the
key being absent from the dictionary. -/
structure Metrics where
  accuracy : ℚ
  precision : ℚ
  «recall» : ℚ
  f1 : ℚ
  roc_auc : ℚ
  pr_auc : ℚ
  report : String
  train_samples_pre_smote : ℕ
  train_samples_post_smote : ℕ
  test_samples : ℕ
  num_features : ℕ
  original_fraud_rate : ℚ
  balanced_fraud_rate : ℚ
  original_total : ℕ
  original_fraud : ℕ
  pre_smote_fraud : ℕ
  pre_smote_legit : ℕ
  post_smote_fraud : ℕ
  post_smote_legit : ℕ
  timestamp : String
  feature_importances : Option (List (String × ℚ))
  recent_events : List Event
deriving DecidableEq

/-- Deterministic library routines used by the pipeline whose numeric bodies
live outside this repository.  `applyScale` is StandardScaler's per-element
map `x ↦ (x - mean)/sqrt(var)` (irrational in general, hence abstracted;
its fitted statistics are computed exactly by `scaler_fit` below).
`synth` generates the i-th synthetic SMOTE row for a class.  `roc_auc`,
`pr_auc` and `report` are sklearn's remaining scores, which are pure
functions of the labels and scores. -/
structure MLLib where
  applyScale : ℚ × ℚ → ℚ → ℚ
  synth : Bool → ℕ → List ℚ
  roc_auc : List Bool → List ℚ → ℚ
  pr_auc : List Bool → List ℚ → ℚ
  report : List Bool → List Bool → String

/-- The fitted classifier, abstracted: `predictProba bal_X bal_y row` is the
minority-class probability the model fitted on the balanced training fold
assigns to `row` (`clf.fit(X_tr, y_tr)` then `clf.predict_proba`), and
`importances` is `getattr(clf, 'feature_importances_', None)`. -/
structure Classifier where
  predictProba : List (List ℚ) → List Bool → List ℚ → ℚ
  importances : Option (List ℚ)

/-- Whether each diagnostic try-block of `fit_and_eval` runs without raising
(the harness for claim C4; the pipeline catches these exceptions locally). -/
structure DiagOutcomes where
  importances_ok : Bool
  events_ok : Bool

/-- Modelled from the spec (§4.5): synthetic minority oversampling
(imblearn `SMOTE(random_state=...)`, library code not in this repository).
With the default `sampling_strategy='auto'` every class except the majority
is oversampled until its count equals the majority count; synthetic rows are
interpolations between minority neighbours, abstracted as the generator
`synth`.  (The library raises on single-class input; the pipeline only
reaches it with both classes present.) -/
def smote_resample (synth : Bool → ℕ → List ℚ) (X : List (List ℚ)) (y : List Bool) :
    List (List ℚ) × List Bool :=
  let c1 := y.count true
  let c0 := y.count false
  let m := max c0 c1
  (X ++ (List.range (m - c1)).map (synth true) ++ (List.range (m - c0)).map (synth false),
   y ++ List.replicate (m - c1) true ++ List.replicate (m - c0) false)

/-- Number of feature columns of a matrix (`X.shape[1]`). -/
def numColumns : List (List ℚ) → ℕ
  | [] => 0
  | r :: _ => r.length

/-- Column `j` of a row-major matrix. -/
def matColumn (X : List (List ℚ)) (j : ℕ) : List ℚ := X.map fun r => r.getD j 0

/-- Mean of a list of rationals. -/
def qmean (xs : List ℚ) : ℚ := xs.sum / (xs.length : ℚ)

/-- Biased (ddof=0) variance, as StandardScaler computes it. -/
def qvariance (xs : List ℚ) : ℚ :=
  ((xs.map fun x => (x - qmean xs) ^ 2).sum) / (xs.length : ℚ)

/-- StandardScaler's fit (`pre.fit_transform(X_train)`,
`xgboost_fraud.py` line 211): the per-column (mean, variance) statistics,
computed from the matrix it is fitted on — the training partition only.
The scale is `sqrt(variance)`, a function of these statistics. -/
def scaler_fit (X : List (List ℚ)) : List (ℚ × ℚ) :=
  (List.range (numColumns X)).map fun j => (qmean (matColumn X j), qvariance (matColumn X j))

/-- StandardScaler's transform with previously fitted per-column
statistics (`pre.transform(X_test)`, line 212: the test partition is
transformed with the training parameters, never refit). -/
def scaler_transform (applyScale : ℚ × ℚ → ℚ → ℚ) (ps : List (ℚ × ℚ))
    (X : List (List ℚ)) : List (List ℚ) :=
  X.map fun r => List.zipWith (fun x st => applyScale st x) r ps

/-- Ordering used by `sort_values('proba', ascending=False)` and the
importance ranking: descending in the second component. -/
def sndDesc (a b : String × ℚ) : Prop := b.2 ≤ a.2

/-- Ordering used by `sort_values('proba', ascending=True)`. -/
def sndAsc (a b : String × ℚ) : Prop := a.2 ≤ b.2

instance : DecidableRel sndDesc := fun a b => inferInstanceAs (Decidable (b.2 ≤ a.2))

instance : DecidableRel sndAsc := fun a b => inferInstanceAs (Decidable (a.2 ≤ b.2))

instance : IsTotal (String × ℚ) sndDesc := ⟨fun a b => le_total b.2 a.2⟩

instance : IsTrans (String × ℚ) sndDesc := ⟨fun _ _ _ h1 h2 => le_trans h2 h1⟩

instance : IsTotal (String × ℚ) sndAsc := ⟨fun a b => le_total a.2 b.2⟩

instance : IsTrans (String × ℚ) sndAsc := ⟨fun _ _ _ h1 h2 => le_trans h1 h2⟩

/-- A fraud-side event record (`xgboost_fraud.py` lines 280-285): address
truncated to its first 12 characters, status `'fraud'`, confidence equal to
the fraud probability, recency placeholder `'just now'`. -/
def mkFraudEvent (r : String × ℚ) : Event :=
  ⟨r.1.take 12, "fraud", r.2, "just now"⟩

/-- A legitimate-side event record (lines 287-292): confidence is
`1 - proba`. -/
def mkLegitEvent (r : String × ℚ) : Event :=
  ⟨r.1.take 12, "legitimate", 1 - r.2, "just now"⟩

/-- The recent-events construction of `fit_and_eval` (lines 267-293) on the
(test address, fraud probability) pairs: the 10 rows with the highest
probabilities as fraud events, followed by the 10 rows with the lowest
probabilities as legitimate events.  pandas `sort_values` defaults to an
unstable quicksort whose tie order is unspecified; insertion sort fixes one
deterministic order. -/
def recent_events (rows : List (String × ℚ)) : List Event :=
  ((List.insertionSort sndDesc rows).take 10).map mkFraudEvent
    ++ ((List.insertionSort sndAsc rows).take 10).map mkLegitEvent

/-- The feature-importance ranking (lines 256-263): pair the preprocessor's
column names with the classifier's importances, sort descending by
importance and keep the top 50. -/
def rank_importances (featureNames : List String) (imps : List ℚ) : List (String × ℚ) :=
  (List.insertionSort sndDesc (featureNames.zip imps)).take 50

/-- Function `fit_and_eval(clf)` (`xgboost_fraud.py` lines 209-296 and its verbatim
copy in `random_forest_fraud.py` lines 77-154), parameterized by the
handler value `onImpError` the `except` branch of the feature-importance
try-block stores: the xgboost version executes `pass`, leaving the key
absent (`none`); the random-forest version stores an empty list
(`some []`).  Returns the metrics dictionary together with the fitted
preprocessing state (the source returns `(metrics, clf, pre)`). -/
def fit_and_eval_core (onImpError : Option (List (String × ℚ)))
    (lib : MLLib) (clf : Classifier) (diag : DiagOutcomes)
    (featureNames : List String)
    (X_train : List (List ℚ)) (y_train : List Bool)
    (X_test : List (List ℚ)) (y_test : List Bool)
    (addr_test : List String)
    (original_fraud_rate : ℚ) (original_total original_fraud : ℕ)
    (now : String) : Metrics × List (ℚ × ℚ) :=
  let ps := scaler_fit X_train
  let X_tr0 := scaler_transform lib.applyScale ps X_train
  let X_te := scaler_transform lib.applyScale ps X_test
  let bal := smote_resample lib.synth X_tr0 y_train
  let X_tr := bal.1
  let y_tr := bal.2
  let proba := X_te.map (clf.predictProba X_tr y_tr)
  let preds := proba.map fun pr => decide ((1:ℚ)/2 ≤ pr)
  let fi : Option (List (String × ℚ)) :=
    if diag.importances_ok then
      match clf.importances with
      | some imps => some (rank_importances featureNames imps)
      | none => none
    else onImpError
  let events := if diag.events_ok then recent_events (addr_test.zip proba) else []
  (⟨accuracy_score y_test preds,
    precision_score y_test preds,
    recall_score y_test preds,
    f1_score y_test preds,
    lib.roc_auc y_test proba,
    lib.pr_auc y_test proba,
    lib.report y_test preds,
    X_train.length, X_tr.length, X_test.length, numColumns X_tr,
    original_fraud_rate,
    ((y_tr.count true : ℕ) : ℚ) / ((y_tr.length : ℕ) : ℚ),
    original_total, original_fraud,
    y_train.count true, y_train.count false,
    y_tr.count true, y_tr.count false,
    now ++ "Z",
    fi, events⟩, ps)

/-- Variant of `fit_and_eval` as defined inside `train_xgb`: an importance failure is
swallowed by `pass` (no key written). -/
def fit_and_eval_xgb := fit_and_eval_core none

/-- Variant of `fit_and_eval` as defined inside `train_random_forest`: an importance
failure writes an empty list. -/
def fit_and_eval_rf := fit_and_eval_core (some [])

/-- The train/test partition produced by sklearn's seeded
`train_test_split(..., test_size=0.20, stratify=y)` (library code),
together with the test-row addresses fetched by index. -/
structure Folds where
  X_train : List (List ℚ)
  y_train : List Bool
  X_test : List (List ℚ)
  y_test : List Bool
  addr_test : List String

/-- Outlier filtering as applied by `train_xgb` lines 171-173: the feature matrix
and label are filtered jointly (rows carried with their label and address),
with the fences computed on the full pre-split frame. -/
def iqr_clip_rows (rows : List (List ℚ × Bool × String)) (cols : List ℕ) :
    List (List ℚ × Bool × String) :=
  let frame := rows.map fun r => r.1.map some
  rows.filter fun r => keepRow frame cols (3/2) (r.1.map some)

/-- Function `train_xgb(df, random_search=False)` (`xgboost_fraud.py` lines 151-177
and 298-299): record the original class statistics, filter outliers on the
continuous columns, split with the seeded splitter, and run `fit_and_eval`
on the base classifier.  `now` is the wall clock read by
`datetime.utcnow()` at line 252. -/
def train_xgb_nosearch (lib : MLLib) (base_xgb : Classifier) (diag : DiagOutcomes)
    (split : List (List ℚ × Bool × String) → ℕ → Folds)
    (featureNames : List String) (contCols : List ℕ)
    (rows : List (List ℚ × Bool × String)) (seed : ℕ) (now : String) :
    Metrics × List (ℚ × ℚ) :=
  let y := rows.map fun r => r.2.1
  let original_fraud_rate := ((y.count true : ℕ) : ℚ) / ((y.length : ℕ) : ℚ)
  let kept := iqr_clip_rows rows contCols
  let f := split kept seed
  fit_and_eval_xgb lib base_xgb diag featureNames f.X_train f.y_train f.X_test f.y_test
    f.addr_test original_fraud_rate y.length (y.count true) now

/-- A concrete instantiation of the abstracted library routines, used to
exercise the pipeline on explicit inputs. -/
def constLib : MLLib :=
  ⟨fun st x => x - st.1, fun _ _ => [0], fun _ _ => 0, fun _ _ => 0, fun _ _ => ""⟩

/-- A concrete classifier assigning probability 1/2 everywhere, with no
importance attribute. -/
def constClf : Classifier := ⟨fun _ _ _ => 1/2, none⟩

/-- Both diagnostic try-blocks run without raising. -/
def okDiag : DiagOutcomes := ⟨true, true⟩

/-- A concrete splitter for exercising `train_xgb_nosearch`. -/
def constSplit : List (List ℚ × Bool × String) → ℕ → Folds :=
  fun _ _ => ⟨[[1], [2]], [true, false], [[3]], [true], ["c"]⟩

/-- C6: the fitted standardization parameters of a run are exactly the
per-column statistics of the training partition, so two runs sharing the
training partition but differing arbitrarily in the test partition's
feature values fit identical parameters — the test partition is transformed
with them (`scaler_transform`), never refit. -/
theorem scaler_params_from_train_only
    (lib : MLLib) (clf : Classifier) (diag : DiagOutcomes) (featureNames : List String)
    (X_train : List (List ℚ)) (y_train : List Bool)
    (X_test X_test' : List (List ℚ)) (y_test : List Bool) (addr_test : List String)
    (orate : ℚ) (ot ofr : ℕ) (now : String) :
    (fit_and_eval_xgb lib clf diag featureNames X_train y_train X_test y_test addr_test
        orate ot ofr now).2 = scaler_fit X_train ∧
    (fit_and_eval_xgb lib clf diag featureNames X_train y_train X_test y_test addr_test
        orate ot ofr now).2
      = (fit_and_eval_xgb lib clf diag featureNames X_train y_train X_test' y_test addr_test
        orate ot ofr now).2 :=
  ⟨rfl, rfl⟩

/-- A metrics record with its two diagnostic entries blanked, for comparing
the non-diagnostic content of two runs. -/
def eraseDiagnostics (m : Metrics) : Metrics :=
  { m with feature_importances := none, recent_events := [] }

/-- C4 (amended): a failure in a diagnostic try-block never aborts the run
and never changes any non-diagnostic field; the event ranking degrades to an
empty list in both families, and the feature-importance ranking degrades to
an empty list in the random-forest family but leaves the importance entry
ABSENT from the metrics in the xgboost family (`except: pass`). -/
theorem diagnostic_failures_degrade
    (lib : MLLib) (clf : Classifier) (featureNames : List String)
    (X_train : List (List ℚ)) (y_train : List Bool) (X_test : List (List ℚ))
    (y_test : List Bool) (addr_test : List String)
    (orate : ℚ) (ot ofr : ℕ) (now : String) :
    ((fit_and_eval_xgb lib clf ⟨false, false⟩ featureNames X_train y_train X_test y_test
        addr_test orate ot ofr now).1.recent_events = [] ∧
     (fit_and_eval_xgb lib clf ⟨false, false⟩ featureNames X_train y_train X_test y_test
        addr_test orate ot ofr now).1.feature_importances = none) ∧
    ((fit_and_eval_rf lib clf ⟨false, false⟩ featureNames X_train y_train X_test y_test
        addr_test orate ot ofr now).1.recent_events = [] ∧
     (fit_and_eval_rf lib clf ⟨false, false⟩ featureNames X_train y_train X_test y_test
        addr_test orate ot ofr now).1.feature_importances = some []) ∧
    eraseDiagnostics (fit_and_eval_xgb lib clf ⟨false, false⟩ featureNames X_train y_train
        X_test y_test addr_test orate ot ofr now).1
      = eraseDiagnostics (fit_and_eval_xgb lib clf ⟨true, true⟩ featureNames X_train y_train
        X_test y_test addr_test orate ot ofr now).1 ∧
    eraseDiagnostics (fit_and_eval_rf lib clf ⟨false, false⟩ featureNames X_train y_train
        X_test y_test addr_test orate ot ofr now).1
      = eraseDiagnostics (fit_and_eval_rf lib clf ⟨true, true⟩ featureNames X_train y_train
        X_test y_test addr_test orate ot ofr now).1 :=
  ⟨⟨rfl, rfl⟩, ⟨rfl, rfl⟩, rfl, rfl⟩

/-- C4 (counterexample): in the xgboost family a feature-importance failure
does NOT leave an empty importance result in the returned metrics — the
entry is absent (`except: pass` writes no key), not empty. -/
theorem xgb_importance_failure_leaves_no_entry :
    ((fit_and_eval_xgb constLib constClf ⟨false, true⟩ ["f0"] [[1]] [true] [[2]] [false]
        ["a"] 0 1 1 "T").1.feature_importances = none) ∧
    ((fit_and_eval_xgb constLib constClf ⟨false, true⟩ ["f0"] [[1]] [true] [[2]] [false]
        ["a"] 0 1 1 "T").1.feature_importances = some ([] : List (String × ℚ)) → False) :=
  ⟨rfl, fun h => Option.noConfusion h⟩

/-- A metrics record with the timestamp blanked, for comparing the rest of
two runs' output. -/
def eraseTimestamp (m : Metrics) : Metrics := { m with timestamp := "" }

/-- C2 (amended): two non-search runs on identical inputs with the same seed
produce metrics records that are bit-identical in every field EXCEPT
`timestamp`, which records the invocation's wall-clock time
(`datetime.utcnow()`, line 252) and so differs between invocations; the
fitted preprocessing state is also identical. -/
theorem nosearch_run_identical_except_timestamp
    (lib : MLLib) (base_xgb : Classifier) (diag : DiagOutcomes)
    (split : List (List ℚ × Bool × String) → ℕ → Folds)
    (featureNames : List String) (contCols : List ℕ)
    (rows : List (List ℚ × Bool × String)) (seed : ℕ) (now now' : String) :
    eraseTimestamp (train_xgb_nosearch lib base_xgb diag split featureNames contCols
        rows seed now).1
      = eraseTimestamp (train_xgb_nosearch lib base_xgb diag split featureNames contCols
        rows seed now').1 ∧
    (train_xgb_nosearch lib base_xgb diag split featureNames contCols rows seed now).2
      = (train_xgb_nosearch lib base_xgb diag split featureNames contCols rows seed now').2 :=
  ⟨rfl, rfl⟩

/-- C2 (counterexample): two invocations of the same non-search run on
identical inputs and seed, performed at different wall-clock instants, do
not return bit-identical metrics: the `timestamp` field differs. -/
theorem nosearch_run_not_bit_identical :
    train_xgb_nosearch constLib constClf okDiag constSplit [] []
        [([1], true, "a"), ([2], false, "b"), ([3], true, "c")] 42 "2024-01-01T00:00:00"
      ≠ train_xgb_nosearch constLib constClf okDiag constSplit [] []
        [([1], true, "a"), ([2], false, "b"), ([3], true, "c")] 42 "2024-01-01T00:00:01" := by
  intro h
  have h2 : ("2024-01-01T00:00:00Z" : String) = "2024-01-01T00:00:01Z" :=
    congrArg (fun r => r.1.timestamp) h
  exact absurd h2 (by decide)

lemma count_true_add_count_false (l : List Bool) :
    l.count true + l.count false = l.length := by
  induction l with
  | nil => rfl
  | cons b t ih => cases b <;> simp [List.count_cons] <;> omega


lemma smote_label_counts (synth : Bool → ℕ → List ℚ) (X : List (List ℚ)) (y : List Bool) :
    (smote_resample synth X y).2.count true = max (y.count false) (y.count true) ∧
    (smote_resample synth X y).2.count false = max (y.count false) (y.count true) := by
  unfold smote_resample
  refine ⟨?_, ?_⟩
  · simp [List.count_append, List.count_replicate]
  · simp [List.count_append, List.count_replicate]

/-- C5: whenever the training fold contains both classes, the balanced
training labels produced by the oversampler have equal fraud and legitimate
counts, and the reported `balanced_fraud_rate` is exactly 1/2. -/
theorem balanced_fraud_rate_half
    (lib : MLLib) (clf : Classifier) (diag : DiagOutcomes) (featureNames : List String)
    (X_train : List (List ℚ)) (y_train : List Bool)
    (X_test : List (List ℚ)) (y_test : List Bool) (addr_test : List String)
    (orate : ℚ) (ot ofr : ℕ) (now : String)
    (h1 : 0 < y_train.count true) (h0 : 0 < y_train.count false) :
    (fit_and_eval_xgb lib clf diag featureNames X_train y_train X_test y_test addr_test
        orate ot ofr now).1.post_smote_fraud
      = (fit_and_eval_xgb lib clf diag featureNames X_train y_train X_test y_test addr_test
        orate ot ofr now).1.post_smote_legit ∧
    (fit_and_eval_xgb lib clf diag featureNames X_train y_train X_test y_test addr_test
        orate ot ofr now).1.balanced_fraud_rate = 1/2 := by
  set X_tr0 := scaler_transform lib.applyScale (scaler_fit X_train) X_train with hX
  obtain ⟨hct, hcf⟩ := smote_label_counts lib.synth X_tr0 y_train
  set y_tr := (smote_resample lib.synth X_tr0 y_train).2 with hy
  set m := max (y_train.count false) (y_train.count true) with hm
  have hmpos : 0 < m := lt_of_lt_of_le h1 (le_max_right _ _)
  have hlen : y_tr.length = m + m := by
    rw [← count_true_add_count_false y_tr, hct, hcf]
  have hfrac : ((y_tr.count true : ℕ) : ℚ) / ((y_tr.length : ℕ) : ℚ) = 1/2 := by
    rw [hct, hlen]
    have hm0 : ((m : ℕ) : ℚ) ≠ 0 := by
      exact_mod_cast Nat.pos_iff_ne_zero.mp hmpos
    push_cast
    field_simp
    ring
  exact ⟨by rw [show (fit_and_eval_xgb lib clf diag featureNames X_train y_train X_test
      y_test addr_test orate ot ofr now).1.post_smote_fraud = y_tr.count true from rfl,
      show (fit_and_eval_xgb lib clf diag featureNames X_train y_train X_test
      y_test addr_test orate ot ofr now).1.post_smote_legit = y_tr.count false from rfl,
      hct, hcf],
    by rw [show (fit_and_eval_xgb lib clf diag featureNames X_train y_train X_test
      y_test addr_test orate ot ofr now).1.balanced_fraud_rate
        = ((y_tr.count true : ℕ) : ℚ) / ((y_tr.length : ℕ) : ℚ) from rfl, hfrac]⟩

/-- C5 (witness): a concrete two-class training fold on which the balanced
rate is exactly 1/2. -/
theorem balanced_fraud_rate_half_witness :
    (0 < [true, false, false].count true) ∧ (0 < [true, false, false].count false) ∧
    ((fit_and_eval_xgb constLib constClf okDiag ["f0"] [[1], [2], [3]] [true, false, false]
        [[4]] [true] ["a"] (1/3) 3 1 "T").1.post_smote_fraud
      = (fit_and_eval_xgb constLib constClf okDiag ["f0"] [[1], [2], [3]] [true, false, false]
        [[4]] [true] ["a"] (1/3) 3 1 "T").1.post_smote_legit ∧
    (fit_and_eval_xgb constLib constClf okDiag ["f0"] [[1], [2], [3]] [true, false, false]
        [[4]] [true] ["a"] (1/3) 3 1 "T").1.balanced_fraud_rate = 1/2) :=
  ⟨by decide, by decide,
    balanced_fraud_rate_half constLib constClf okDiag ["f0"] [[1], [2], [3]]
      [true, false, false] [[4]] [true] ["a"] (1/3) 3 1 "T" (by decide) (by decide)⟩

lemma tp_eq_zero_of_all_negative (y p : List Bool) (h : ∀ b ∈ y, b = false) :
    tp y p = 0 := by
  unfold tp
  rw [List.countP_eq_zero]
  intro ab hab
  have : ab.1 ∈ y := (List.of_mem_zip hab).1
  simp [h _ this]

lemma fnc_eq_zero_of_all_negative (y p : List Bool) (h : ∀ b ∈ y, b = false) :
    fnc y p = 0 := by
  unfold fnc
  rw [List.countP_eq_zero]
  intro ab hab
  have : ab.1 ∈ y := (List.of_mem_zip hab).1
  simp [h _ this]

lemma scores_zero_of_all_negative (y p : List Bool) (h : ∀ b ∈ y, b = false) :
    precision_score y p = 0 ∧ recall_score y p = 0 ∧ f1_score y p = 0 := by
  have htp := tp_eq_zero_of_all_negative y p h
  have hfn := fnc_eq_zero_of_all_negative y p h
  have hprec : precision_score y p = 0 := by
    unfold precision_score
    rw [htp]
    split
    · rfl
    · simp
  have hrec : recall_score y p = 0 := by
    unfold recall_score
    rw [htp, hfn]
    simp
  refine ⟨hprec, hrec, ?_⟩
  unfold f1_score
  rw [hprec, hrec]
  simp

/-- C8: when the test-fold labels are all negative (a `flag` column that is
entirely zero), the run's precision, recall and F1 are all 0 — the
`zero_division=0` policy prevents any zero-division error; the score
expressions are total. -/
theorem zero_flag_scores_default_zero
    (lib : MLLib) (clf : Classifier) (diag : DiagOutcomes) (featureNames : List String)
    (X_train : List (List ℚ)) (y_train : List Bool)
    (X_test : List (List ℚ)) (y_test : List Bool) (addr_test : List String)
    (orate : ℚ) (ot ofr : ℕ) (now : String)
    (h : ∀ b ∈ y_test, b = false) :
    (fit_and_eval_xgb lib clf diag featureNames X_train y_train X_test y_test addr_test
        orate ot ofr now).1.precision = 0 ∧
    (fit_and_eval_xgb lib clf diag featureNames X_train y_train X_test y_test addr_test
        orate ot ofr now).1.«recall» = 0 ∧
    (fit_and_eval_xgb lib clf diag featureNames X_train y_train X_test y_test addr_test
        orate ot ofr now).1.f1 = 0 :=
  scores_zero_of_all_negative y_test _ h

/-- C8 (witness): a concrete run whose test labels are all zero; the three
scores are 0, no exception. -/
theorem zero_flag_scores_default_zero_witness :
    (∀ b ∈ [false, false], b = false) ∧
    ((fit_and_eval_xgb constLib constClf okDiag ["f0"] [[1], [2]] [true, false]
        [[3], [4]] [false, false] ["a", "b"] (1/2) 2 1 "T").1.precision = 0 ∧
    (fit_and_eval_xgb constLib constClf okDiag ["f0"] [[1], [2]] [true, false]
        [[3], [4]] [false, false] ["a", "b"] (1/2) 2 1 "T").1.«recall» = 0 ∧
    (fit_and_eval_xgb constLib constClf okDiag ["f0"] [[1], [2]] [true, false]
        [[3], [4]] [false, false] ["a", "b"] (1/2) 2 1 "T").1.f1 = 0) :=
  ⟨by decide,
    zero_flag_scores_default_zero constLib constClf okDiag ["f0"] [[1], [2]] [true, false]
      [[3], [4]] [false, false] ["a", "b"] (1/2) 2 1 "T" (by decide)⟩

/-- Claim C9 as stated, at the event level: every fraud-status event in the
recent-events list belongs to a PREDICTED-FRAUD test address, i.e. one whose
fraud probability clears the 0.5 prediction threshold of line 226. -/
def fraud_events_are_predicted_fraud (rows : List (String × ℚ)) : Prop :=
  ∀ e ∈ recent_events rows, e.status = "fraud" →
    ∃ r ∈ rows, e.address = r.1.take 12 ∧ (1:ℚ)/2 ≤ r.2

/-- C9 (counterexample): with a single test address of fraud probability 0 —
predicted legitimate — the code still emits a fraud-status event for it:
the fraud side of the list is the top 10 by probability among ALL test
addresses, not among the predicted-fraud ones. -/
theorem recent_events_fraud_without_predicted_fraud :
    ¬ fraud_events_are_predicted_fraud [("addr1", 0)] := by
  intro h
  obtain ⟨r, hr, _, hge⟩ := h (mkFraudEvent ("addr1", 0))
    (by
      rw [show recent_events [("addr1", 0)]
          = [mkFraudEvent ("addr1", 0), mkLegitEvent ("addr1", 0)] from rfl]
      exact List.mem_cons_self _ _)
    rfl
  rw [List.mem_singleton] at hr
  rw [hr] at hge
  norm_num at hge

/-- C9 (amended): the recent-events list is the 10 highest-probability test
addresses — predicted fraud or not — as fraud events (confidence = the fraud
probability), followed by the 10 lowest-probability test addresses as
legitimate events (confidence = 1 − probability), each address truncated to
its first 12 characters and tagged with the recency placeholder
(`mkFraudEvent`/`mkLegitEvent`). -/
theorem recent_events_top_bottom (rows : List (String × ℚ)) :
    ∃ fr rest lg rest',
      List.Perm (fr ++ rest) rows ∧ List.Perm (lg ++ rest') rows ∧
      fr.length = min 10 rows.length ∧ lg.length = min 10 rows.length ∧
      (∀ x ∈ fr, ∀ y ∈ rest, y.2 ≤ x.2) ∧
      (∀ x ∈ lg, ∀ y ∈ rest', x.2 ≤ y.2) ∧
      recent_events rows = fr.map mkFraudEvent ++ lg.map mkLegitEvent := by
  refine ⟨(List.insertionSort sndDesc rows).take 10,
    (List.insertionSort sndDesc rows).drop 10,
    (List.insertionSort sndAsc rows).take 10,
    (List.insertionSort sndAsc rows).drop 10, ?_, ?_, ?_, ?_, ?_, ?_, rfl⟩
  · rw [List.take_append_drop]
    exact List.perm_insertionSort _ _
  · rw [List.take_append_drop]
    exact List.perm_insertionSort _ _
  · rw [List.length_take, List.length_insertionSort]
  · rw [List.length_take, List.length_insertionSort]
  · intro x hx y hy
    have hs : List.Sorted sndDesc (List.insertionSort sndDesc rows) :=
      List.sorted_insertionSort sndDesc rows
    rw [← List.take_append_drop 10 (List.insertionSort sndDesc rows)] at hs
    exact (List.pairwise_append.mp hs).2.2 x hx y hy
  · intro x hx y hy
    have hs : List.Sorted sndAsc (List.insertionSort sndAsc rows) :=
      List.sorted_insertionSort sndAsc rows
    rw [← List.take_append_drop 10 (List.insertionSort sndAsc rows)] at hs
    exact (List.pairwise_append.mp hs).2.2 x hx y hy

lemma take10_overlap (rows : List (String × ℚ)) (h1 : 1 ≤ rows.length)
    (h2 : rows.length < 20) :
    ∃ r, r ∈ (List.insertionSort sndDesc rows).take 10 ∧
      r ∈ (List.insertionSort sndAsc rows).take 10 := by
  by_contra hc
  push_neg at hc
  have hA : (((List.insertionSort sndDesc rows).take 10 : List (String × ℚ)) :
      Multiset (String × ℚ)) ≤ (rows : Multiset (String × ℚ)) := by
    rw [Multiset.coe_le]
    exact ((List.take_sublist _ _).subperm).trans (List.perm_insertionSort _ _).subperm
  have hB : (((List.insertionSort sndAsc rows).take 10 : List (String × ℚ)) :
      Multiset (String × ℚ)) ≤ (rows : Multiset (String × ℚ)) := by
    rw [Multiset.coe_le]
    exact ((List.take_sublist _ _).subperm).trans (List.perm_insertionSort _ _).subperm
  have hsum : (((List.insertionSort sndDesc rows).take 10 : List (String × ℚ)) :
        Multiset (String × ℚ))
      + (((List.insertionSort sndAsc rows).take 10 : List (String × ℚ)) :
        Multiset (String × ℚ))
      ≤ (rows : Multiset (String × ℚ)) := by
    rw [Multiset.le_iff_count]
    intro a
    rw [Multiset.count_add]
    by_cases ha : a ∈ (List.insertionSort sndDesc rows).take 10
    · have hb : a ∉ (List.insertionSort sndAsc rows).take 10 := hc a ha
      have hb0 : Multiset.count a (((List.insertionSort sndAsc rows).take 10 :
          List (String × ℚ)) : Multiset (String × ℚ)) = 0 :=
        Multiset.count_eq_zero.mpr (by simpa using hb)
      rw [hb0, Nat.add_zero]
      exact Multiset.count_le_of_le a hA
    · have ha0 : Multiset.count a (((List.insertionSort sndDesc rows).take 10 :
          List (String × ℚ)) : Multiset (String × ℚ)) = 0 :=
        Multiset.count_eq_zero.mpr (by simpa using ha)
      rw [ha0, Nat.zero_add]
      exact Multiset.count_le_of_le a hB
  have hcard := Multiset.card_le_card hsum
  rw [Multiset.card_add, Multiset.coe_card, Multiset.coe_card, Multiset.coe_card,
    List.length_take, List.length_take, List.length_insertionSort,
    List.length_insertionSort] at hcard
  rw [Nat.min_def] at hcard
  split_ifs at hcard <;> omega

lemma countP_trunc_eq_one (rows : List (String × ℚ)) (r : String × ℚ)
    (hr : r ∈ rows) (hnod : (rows.map fun x => x.1.take 12).Nodup) :
    rows.countP (fun x => x.1.take 12 == r.1.take 12) = 1 := by
  have hmem : r.1.take 12 ∈ rows.map fun x => x.1.take 12 :=
    List.mem_map_of_mem _ hr
  have h := List.count_eq_one_of_mem hnod hmem
  rw [List.count_eq_countP, List.countP_map] at h
  exact h

/-- C10 (counterexample): a test fold of two rows sharing one address — at
most 10 rows, yet that address appears FOUR times in the recent-events list
(each row contributes one fraud and one legitimate event), not exactly
twice as the claim states. -/
theorem recent_events_duplicate_address_four_events :
    ([("a", (0:ℚ)), ("a", 0)].length ≤ 10) ∧
    ((recent_events [("a", (0:ℚ)), ("a", 0)]).filter fun e =>
        e.address == "a".take 12).length = 4 ∧
    (((recent_events [("a", (0:ℚ)), ("a", 0)]).filter fun e =>
        e.address == "a".take 12).length = 2 → False) := by
  have hc : ((recent_events [("a", (0:ℚ)), ("a", 0)]).filter fun e =>
      e.address == "a".take 12).length = 4 := by
    rw [show recent_events [("a", (0:ℚ)), ("a", 0)]
        = [mkFraudEvent ("a", 0), mkFraudEvent ("a", 0),
           mkLegitEvent ("a", 0), mkLegitEvent ("a", 0)] from rfl]
    simp [mkFraudEvent, mkLegitEvent]
  exact ⟨by decide, hc, fun h => by rw [hc] at h; exact absurd h (by decide)⟩

/-- C10 (amended): whenever the test partition has between 1 and 19 rows,
some test address appears in the recent-events list under both statuses;
and when it has at most 10 rows, every test row contributes one fraud and
one legitimate event, so a truncated address matching k test rows appears
k times with each status — 2k times in total.  "Exactly twice, once with
each status" therefore holds precisely when the rows' truncated addresses
are pairwise distinct. -/
theorem recent_events_small_test (rows : List (String × ℚ))
    (h1 : 1 ≤ rows.length) (h2 : rows.length < 20) :
    (∃ e1 ∈ recent_events rows, ∃ e2 ∈ recent_events rows,
        e1.status = "fraud" ∧ e2.status = "legitimate" ∧ e1.address = e2.address) ∧
    (rows.length ≤ 10 → ∀ r ∈ rows,
      1 ≤ rows.countP (fun x => x.1.take 12 == r.1.take 12) ∧
      ((recent_events rows).filter fun e =>
          e.address == r.1.take 12 && e.status == "fraud").length
        = rows.countP (fun x => x.1.take 12 == r.1.take 12) ∧
      ((recent_events rows).filter fun e =>
          e.address == r.1.take 12 && e.status == "legitimate").length
        = rows.countP (fun x => x.1.take 12 == r.1.take 12) ∧
      ((recent_events rows).filter fun e => e.address == r.1.take 12).length
        = 2 * rows.countP (fun x => x.1.take 12 == r.1.take 12) ∧
      ((rows.map fun x => x.1.take 12).Nodup →
        ((recent_events rows).filter fun e =>
            e.address == r.1.take 12 && e.status == "fraud").length = 1 ∧
        ((recent_events rows).filter fun e =>
            e.address == r.1.take 12 && e.status == "legitimate").length = 1 ∧
        ((recent_events rows).filter fun e =>
            e.address == r.1.take 12).length = 2)) := by
  constructor
  · obtain ⟨r, hA, hB⟩ := take10_overlap rows h1 h2
    refine ⟨mkFraudEvent r, ?_, mkLegitEvent r, ?_, rfl, rfl, rfl⟩
    · unfold recent_events
      exact List.mem_append_left _ (List.mem_map_of_mem _ hA)
    · unfold recent_events
      exact List.mem_append_right _ (List.mem_map_of_mem _ hB)
  · intro hle r hr
    have hTd : (List.insertionSort sndDesc rows).take 10 = List.insertionSort sndDesc rows :=
      List.take_of_length_le (by rw [List.length_insertionSort]; exact hle)
    have hTa : (List.insertionSort sndAsc rows).take 10 = List.insertionSort sndAsc rows :=
      List.take_of_length_le (by rw [List.length_insertionSort]; exact hle)
    have hfr : ∀ p : Event → Bool,
        (((List.insertionSort sndDesc rows).map mkFraudEvent).filter p).length
          = rows.countP (fun x => p (mkFraudEvent x)) := by
      intro p
      rw [← List.countP_eq_length_filter, List.countP_map,
        (List.perm_insertionSort sndDesc rows).countP_eq]
      rfl
    have hlg : ∀ p : Event → Bool,
        (((List.insertionSort sndAsc rows).map mkLegitEvent).filter p).length
          = rows.countP (fun x => p (mkLegitEvent x)) := by
      intro p
      rw [← List.countP_eq_length_filter, List.countP_map,
        (List.perm_insertionSort sndAsc rows).countP_eq]
      rfl
    have hev : recent_events rows
        = (List.insertionSort sndDesc rows).map mkFraudEvent
          ++ (List.insertionSort sndAsc rows).map mkLegitEvent := by
      unfold recent_events
      rw [hTd, hTa]
    have hpos : 1 ≤ rows.countP (fun x => x.1.take 12 == r.1.take 12) :=
      List.countP_pos_iff.mpr ⟨r, hr, by simp⟩
    have hcf : ((recent_events rows).filter fun e =>
        e.address == r.1.take 12 && e.status == "fraud").length
        = rows.countP (fun x => x.1.take 12 == r.1.take 12) := by
      rw [hev, List.filter_append, List.length_append, hfr, hlg]
      have e1 : rows.countP (fun x =>
          (mkFraudEvent x).address == r.1.take 12 && (mkFraudEvent x).status == "fraud")
          = rows.countP (fun x => x.1.take 12 == r.1.take 12) := by
        apply List.countP_congr
        intro x _
        simp [mkFraudEvent]
      have e2 : rows.countP (fun x =>
          (mkLegitEvent x).address == r.1.take 12 && (mkLegitEvent x).status == "fraud")
          = 0 := by
        rw [List.countP_eq_zero]
        intro x _
        simp [mkLegitEvent]
      rw [e1, e2]
      omega
    have hcl : ((recent_events rows).filter fun e =>
        e.address == r.1.take 12 && e.status == "legitimate").length
        = rows.countP (fun x => x.1.take 12 == r.1.take 12) := by
      rw [hev, List.filter_append, List.length_append, hfr, hlg]
      have e1 : rows.countP (fun x =>
          (mkFraudEvent x).address == r.1.take 12 && (mkFraudEvent x).status == "legitimate")
          = 0 := by
        rw [List.countP_eq_zero]
        intro x _
        simp [mkFraudEvent]
      have e2 : rows.countP (fun x =>
          (mkLegitEvent x).address == r.1.take 12 && (mkLegitEvent x).status == "legitimate")
          = rows.countP (fun x => x.1.take 12 == r.1.take 12) := by
        apply List.countP_congr
        intro x _
        simp [mkLegitEvent]
      rw [e1, e2]
      omega
    have hca : ((recent_events rows).filter fun e =>
        e.address == r.1.take 12).length
        = 2 * rows.countP (fun x => x.1.take 12 == r.1.take 12) := by
      rw [hev, List.filter_append, List.length_append, hfr, hlg]
      have e1 : rows.countP (fun x => (mkFraudEvent x).address == r.1.take 12)
          = rows.countP (fun x => x.1.take 12 == r.1.take 12) := by
        apply List.countP_congr
        intro x _
        simp [mkFraudEvent]
      have e2 : rows.countP (fun x => (mkLegitEvent x).address == r.1.take 12)
          = rows.countP (fun x => x.1.take 12 == r.1.take 12) := by
        apply List.countP_congr
        intro x _
        simp [mkLegitEvent]
      rw [e1, e2]
      omega
    refine ⟨hpos, hcf, hcl, hca, fun hnod => ?_⟩
    have h1 := countP_trunc_eq_one rows r hr hnod
    exact ⟨by rw [hcf, h1], by rw [hcl, h1], by rw [hca, h1]⟩

/-- C10 (witness): two test rows with distinct addresses and probabilities
3/4 and 1/4 — the overlap holds, each address matches one row, appears once
per status and twice in total. -/
theorem recent_events_small_test_witness :
    (∃ e1 ∈ recent_events [("alice", 3/4), ("bob", 1/4)],
      ∃ e2 ∈ recent_events [("alice", 3/4), ("bob", 1/4)],
        e1.status = "fraud" ∧ e2.status = "legitimate" ∧ e1.address = e2.address) ∧
    ([("alice", (3:ℚ)/4), ("bob", 1/4)].length ≤ 10 →
      ∀ r ∈ [("alice", (3:ℚ)/4), ("bob", 1/4)],
        1 ≤ [("alice", (3:ℚ)/4), ("bob", 1/4)].countP
            (fun x => x.1.take 12 == r.1.take 12) ∧
        ((recent_events [("alice", 3/4), ("bob", 1/4)]).filter fun e =>
            e.address == r.1.take 12 && e.status == "fraud").length
          = [("alice", (3:ℚ)/4), ("bob", 1/4)].countP
              (fun x => x.1.take 12 == r.1.take 12) ∧
        ((recent_events [("alice", 3/4), ("bob", 1/4)]).filter fun e =>
            e.address == r.1.take 12 && e.status == "legitimate").length
          = [("alice", (3:ℚ)/4), ("bob", 1/4)].countP
              (fun x => x.1.take 12 == r.1.take 12) ∧
        ((recent_events [("alice", 3/4), ("bob", 1/4)]).filter fun e =>
            e.address == r.1.take 12).length
          = 2 * [("alice", (3:ℚ)/4), ("bob", 1/4)].countP
              (fun x => x.1.take 12 == r.1.take 12) ∧
        (([("alice", (3:ℚ)/4), ("bob", 1/4)].map fun x => x.1.take 12).Nodup →
          ((recent_events [("alice", 3/4), ("bob", 1/4)]).filter fun e =>
              e.address == r.1.take 12 && e.status == "fraud").length = 1 ∧
          ((recent_events [("alice", 3/4), ("bob", 1/4)]).filter fun e =>
              e.address == r.1.take 12 && e.status == "legitimate").length = 1 ∧
          ((recent_events [("alice", 3/4), ("bob", 1/4)]).filter fun e =>
              e.address == r.1.take 12).length = 2)) :=
  recent_events_small_test [("alice", 3/4), ("bob", 1/4)] (by simp) (by simp)

end FraudBackend
